import Mathlib

/-!
Shallow embedding of the url-shortener backend (src/backend/server.js) over the
PostgreSQL schema in the repository (table `urls`).

The store is a list of rows together with the SERIAL counter for `id`; every
SQL statement issued by the handlers is embedded as a Lean function on that
state.  Each Express handler becomes a Lean function from the store state and
the request data to the HTTP response, the post state, and the list of store
statements it issued (so that "single atomic statement" and "no store query"
properties can be stated).  JavaScript request-body values are modelled by
`JsVal`, with JS truthiness and the fact that `startsWith` throws a TypeError
on non-string receivers.
-/

/-- One row of the `urls` table:
`(id SERIAL PRIMARY KEY, short_code VARCHAR(10) UNIQUE NOT NULL, long_url TEXT NOT NULL,
created_at TIMESTAMP DEFAULT CURRENT_TIMESTAMP, clicks INTEGER DEFAULT 0)`. -/
structure UrlRecord where
  id : Nat
  short_code : String
  long_url : String
  created_at : Nat
  clicks : Int
  deriving Repr, DecidableEq

/-- The store state: the rows of `urls` (in insertion order), the next SERIAL
`id`, and the current timestamp used for `created_at` defaults. -/
structure DB where
  rows : List UrlRecord
  nextId : Nat
  now : Nat
  deriving Repr, DecidableEq

/-- Store-level errors surfaced to the handlers' catch blocks. -/
inductive SqlError where
  | undefinedColumn (name : String)
  | uniqueViolation
  deriving Repr, DecidableEq

/-- The SQL statements the handlers issue, for tracing which store operations a
request performs. -/
inductive SqlStmt where
  | selectByLongUrl (url : String)
  | selectIfFromUrls (code : String)
  | insertUrl (code url : String)
  | selectAll
  | selectByCode (code : String)
  | updateLongUrl (url code : String)
  | deleteByCode (code : String)
  | incrementClicks (code : String)
  deriving Repr, DecidableEq

/-- `SELECT short_code FROM urls WHERE long_url = $1` (server.js:54). -/
def selectShortCodeByLongUrl (db : DB) (url : String) : List String :=
  (db.rows.filter (fun r => r.long_url = url)).map (fun r => r.short_code)

/-- `SELECT if FROM urls WHERE short_code = $1` (server.js:72).  The `urls`
schema declares columns `id, short_code, long_url, created_at, clicks` and no
column named `if`, so PostgreSQL rejects this statement with an
undefined-column error, which the driver surfaces as a thrown exception. -/
def selectIfFromUrls (_db : DB) (_code : String) : Except SqlError (List UrlRecord) :=
  .error (.undefinedColumn "if")

/-- `INSERT INTO urls (short_code, long_url) VALUES ($1, $2)` (server.js:86).
The schema supplies `id` from the SERIAL counter, `created_at` from the clock
and `clicks = 0`; the UNIQUE constraint on `short_code` rejects duplicates. -/
def insertUrl (db : DB) (code url : String) : Except SqlError DB :=
  if db.rows.any (fun r => r.short_code = code) then
    .error .uniqueViolation
  else
    .ok { rows := db.rows ++ [⟨db.nextId, code, url, db.now, 0⟩],
          nextId := db.nextId + 1, now := db.now }

/-- `UPDATE urls SET long_url = $1 WHERE short_code = $2 RETURNING *`
(server.js:164): returns the updated rows and the new state. -/
def updateLongUrlReturning (db : DB) (url code : String) :
    List UrlRecord × DB :=
  ((db.rows.filter (fun r => r.short_code = code)).map (fun r => { r with long_url := url }),
   { db with rows := db.rows.map (fun r =>
      if r.short_code = code then { r with long_url := url } else r) })

/-- `DELETE FROM urls WHERE short_code = $1 RETURNING short_code`
(server.js:192): returns the deleted rows' codes and the new state. -/
def deleteByCodeReturning (db : DB) (code : String) : List String × DB :=
  ((db.rows.filter (fun r => r.short_code = code)).map (fun r => r.short_code),
   { db with rows := db.rows.filter (fun r => ¬ r.short_code = code) })

/-- `UPDATE urls SET clicks = clicks + 1 WHERE short_code = $1 RETURNING long_url`
(server.js:218): one statement that both increments and reads. -/
def incrementClicksReturning (db : DB) (code : String) : List String × DB :=
  ((db.rows.filter (fun r => r.short_code = code)).map (fun r => r.long_url),
   { db with rows := db.rows.map (fun r =>
      if r.short_code = code then { r with clicks := r.clicks + 1 } else r) })

/-- A JavaScript value as it arrives in a parsed JSON request body. -/
inductive JsVal where
  | undef
  | nullv
  | str (s : String)
  | num (n : Int)
  | objv
  | boolv (b : Bool)
  deriving Repr, DecidableEq

/-- JavaScript truthiness of a `JsVal`. -/
def truthy : JsVal → Bool
  | .undef => false
  | .nullv => false
  | .str s => decide (s ≠ "")
  | .num n => decide (n ≠ 0)
  | .objv => true
  | .boolv b => b

/-- Outcome of evaluating `!v || !v.startsWith('http')` (server.js:49 and 160):
`invalid` when the guard is taken (falsy value, or a string without the
`http` head), `typeError` when `v.startsWith` throws because `v` is truthy but
not a string, `valid s` when `v` is the string `s` passing the check. -/
inductive UrlCheck where
  | invalid
  | typeError
  | valid (s : String)
  deriving Repr, DecidableEq

/-- JavaScript's `s.startsWith('http')`: the four characters `http` head the
string (stated over the character list, which evaluates by kernel reduction). -/
def startsWithHttp (s : String) : Bool :=
  "http".data.isPrefixOf s.data

def checkUrlField (v : JsVal) : UrlCheck :=
  if truthy v = false then .invalid
  else
    match v with
    | .str s => if startsWithHttp s then .valid s else .invalid
    | _ => .typeError

/-- Response of `POST /api/shorten`. -/
inductive ShortenResult where
  | ok (status : Nat) (shortCode shortUrl : String)
  | err (status : Nat) (error : String)
  deriving Repr, DecidableEq

/-- The fully-qualified short URL built by the handlers:
scheme + `://` + host + `/` + code. -/
def shortUrlOf (proto host code : String) : String :=
  proto ++ "://" ++ host ++ "/" ++ code

/-- The `while (attempts < 5)` code-generation loop (server.js:70-79):
`gen n` is the `nanoid()` result of the loop's n-th iteration.  The second
argument is `5 - attempts`, so that `fuel = 0` is exactly the exit condition
`attempts < 5` failing; each collision does `attempts++`.  Returns the final
`attempts` value and the generated `shortCode` (none when the loop never
reached a `break`), or the store error thrown by the collision check, together
with the statements issued. -/
def genLoopAux (db : DB) (gen : Nat → String) :
    Nat → Nat → Except SqlError (Nat × Option String) × List SqlStmt
  | attempts, 0 => (.ok (attempts, none), [])
  | attempts, fuel + 1 =>
    let code := gen attempts
    match selectIfFromUrls db code with
    | .error e => (.error e, [.selectIfFromUrls code])
    | .ok rows =>
      if rows.length = 0 then
        (.ok (attempts, some code), [.selectIfFromUrls code])
      else
        let rest := genLoopAux db gen (attempts + 1) fuel
        (rest.1, .selectIfFromUrls code :: rest.2)

def genLoop (db : DB) (gen : Nat → String) (attempts : Nat) :
    Except SqlError (Nat × Option String) × List SqlStmt :=
  genLoopAux db gen attempts (5 - attempts)

/-- Handler of `POST /api/shorten` (server.js:44-100).  `gen` stands for the
`nanoid` generator, `proto`/`host` for `req.protocol` and `req.get('host')`. -/
def postShorten (db : DB) (gen : Nat → String) (url : JsVal) (proto host : String) :
    ShortenResult × DB × List SqlStmt :=
  match checkUrlField url with
  | .typeError => (.err 500 "Internal server error", db, [])
  | .invalid => (.err 400 "Valid URL required (must start with http/https)", db, [])
  | .valid u =>
    match selectShortCodeByLongUrl db u with
    | c :: _ => (.ok 200 c (shortUrlOf proto host c), db, [.selectByLongUrl u])
    | [] =>
      match genLoop db gen 0 with
      | (.error _, tr) =>
        (.err 500 "Internal server error", db, .selectByLongUrl u :: tr)
      | (.ok (attempts, codeOpt), tr) =>
        if attempts = 5 then
          (.err 500 "Failed to generate unique code", db, .selectByLongUrl u :: tr)
        else
          match codeOpt with
          | some c =>
            match insertUrl db c u with
            | .error _ =>
              (.err 500 "Internal server error", db,
               .selectByLongUrl u :: tr ++ [.insertUrl c u])
            | .ok db' =>
              (.ok 201 c (shortUrlOf proto host c), db',
               .selectByLongUrl u :: tr ++ [.insertUrl c u])
          | none =>
            -- unreachable: the loop leaves `attempts < 5` only through the
            -- break, which always sets `shortCode`
            (.err 500 "Internal server error", db, .selectByLongUrl u :: tr)

/-- One entry of the `GET /api/urls` response (server.js:110-117). -/
structure ListEntry where
  id : Nat
  shortCode : String
  longUrl : String
  createdAt : Nat
  clicks : Int
  shortUrl : String
  deriving Repr, DecidableEq

/-- Insertion step of `ORDER BY created_at DESC`. -/
def insertByCreatedDesc (r : UrlRecord) : List UrlRecord → List UrlRecord
  | [] => [r]
  | x :: xs =>
    if r.created_at ≥ x.created_at then r :: x :: xs
    else x :: insertByCreatedDesc r xs

def sortByCreatedDesc (l : List UrlRecord) : List UrlRecord :=
  l.foldr insertByCreatedDesc []

/-- Handler of `GET /api/urls` (server.js:103-124):
`SELECT ... ORDER BY created_at DESC LIMIT 100`, read-only. -/
def getUrls (db : DB) (proto host : String) : List ListEntry × DB :=
  (((sortByCreatedDesc db.rows).take 100).map (fun r =>
    ⟨r.id, r.short_code, r.long_url, r.created_at, r.clicks,
     shortUrlOf proto host r.short_code⟩), db)

/-- Response of `GET /api/urls/:shortCode`. -/
inductive GetResult where
  | ok (status : Nat) (id : Nat) (shortCode longUrl : String) (createdAt : Nat) (clicks : Int)
  | err (status : Nat) (error : String)
  deriving Repr, DecidableEq

/-- Handler of `GET /api/urls/:shortCode` (server.js:127-152). -/
def getUrlByCode (db : DB) (code : String) : GetResult × DB :=
  match db.rows.filter (fun r => r.short_code = code) with
  | [] => (.err 404 "URL not found", db)
  | r :: _ => (.ok 200 r.id r.short_code r.long_url r.created_at r.clicks, db)

/-- Response of `PUT /api/urls/:shortCode` (server.js:173-178; note the source
serializes `id, shortCode, longUrl, clicks` and no `createdAt`). -/
inductive UpdateResult where
  | ok (status : Nat) (id : Nat) (shortCode longUrl : String) (clicks : Int)
  | err (status : Nat) (error : String)
  deriving Repr, DecidableEq

/-- Handler of `PUT /api/urls/:shortCode` (server.js:155-184). -/
def putUpdateUrl (db : DB) (code : String) (longUrl : JsVal) : UpdateResult × DB :=
  match checkUrlField longUrl with
  | .typeError => (.err 500 "Internal server error", db)
  | .invalid => (.err 400 "Valid URL required (must start with http/https", db)
  | .valid u =>
    let res := updateLongUrlReturning db u code
    match res.1 with
    | [] => (.err 404 "URL not found", res.2)
    | r :: _ => (.ok 200 r.id r.short_code r.long_url r.clicks, res.2)

/-- Response of `DELETE /api/urls/:shortCode`. -/
inductive DeleteResult where
  | ok (status : Nat) (message shortCode : String)
  | err (status : Nat) (error : String)
  deriving Repr, DecidableEq

/-- Handler of `DELETE /api/urls/:shortCode` (server.js:187-205). -/
def deleteUrl (db : DB) (code : String) : DeleteResult × DB :=
  let res := deleteByCodeReturning db code
  match res.1 with
  | [] => (.err 404 "URL not found", res.2)
  | _ :: _ => (.ok 200 "URL deleted successfully" code, res.2)

/-- Response of the wildcard `GET /:shortCode` redirect handler; `noResponse`
models the bare `return` on the reserved segments, after which no response is
ever written. -/
inductive RedirectResult where
  | redirect (status : Nat) (location : String)
  | err (status : Nat) (error : String)
  | noResponse
  deriving Repr, DecidableEq

/-- Handler of `GET /:shortCode` (server.js:208-232); `res.redirect` sends 302. -/
def getRedirect (db : DB) (code : String) : RedirectResult × DB × List SqlStmt :=
  if code = "api" ∨ code = "health" then
    (.noResponse, db, [])
  else
    let res := incrementClicksReturning db code
    match res.1 with
    | [] => (.err 404 "Short URL not found", res.2, [.incrementClicks code])
    | l :: _ => (.redirect 302 l, res.2, [.incrementClicks code])

/-- A service operation, for stating invariants across operation sequences. -/
inductive Op where
  | createOp (gen : Nat → String) (url : JsVal) (proto host : String)
  | listOp (proto host : String)
  | getOp (code : String)
  | updateOp (code : String) (longUrl : JsVal)
  | deleteOp (code : String)
  | redirectOp (code : String)

/-- The store state after running one operation's handler. -/
def applyOp (db : DB) : Op → DB
  | .createOp g u p h => (postShorten db g u p h).2.1
  | .listOp p h => (getUrls db p h).2
  | .getOp c => (getUrlByCode db c).2
  | .updateOp c lu => (putUpdateUrl db c lu).2
  | .deleteOp c => (deleteUrl db c).2
  | .redirectOp c => (getRedirect db c).2.1

/-! ### Helper lemmas about the embedded store operations -/

theorem startsWithHttp_ne_empty {s : String} (h : startsWithHttp s = true) : s ≠ "" := by
  intro he
  subst he
  exact absurd h (by decide)

theorem checkUrlField_str_valid {s : String} (h : startsWithHttp s = true) :
    checkUrlField (.str s) = .valid s := by
  have hne : s ≠ "" := startsWithHttp_ne_empty h
  simp [checkUrlField, truthy, hne, h]

theorem filter_code_eq_single {l : List UrlRecord} {code : String} {r : UrlRecord}
    (hnd : (l.map (fun x => x.short_code)).Nodup) (hr : r ∈ l) (hc : r.short_code = code) :
    l.filter (fun x => x.short_code = code) = [r] := by
  induction l with
  | nil => cases hr
  | cons x xs ih =>
    rw [List.map_cons, List.nodup_cons] at hnd
    rcases List.mem_cons.mp hr with rfl | hr'
    · have hnil : xs.filter (fun y => y.short_code = code) = [] := by
        rw [List.filter_eq_nil_iff]
        intro y hy
        simp only [decide_eq_true_eq]
        intro hyc
        exact hnd.1 (hc ▸ hyc ▸ List.mem_map_of_mem (fun z => z.short_code) hy)
      simp [List.filter_cons, hc, hnil]
    · have hxc : ¬ x.short_code = code := by
        intro hxc
        have : r.short_code ∈ xs.map (fun z => z.short_code) :=
          List.mem_map_of_mem (fun z => z.short_code) hr'
        rw [hc, ← hxc] at this
        exact hnd.1 this
      simp only [List.filter_cons, decide_eq_true_eq]
      rw [if_neg hxc]
      exact ih hnd.2 hr'

theorem filter_code_eq_nil {l : List UrlRecord} {code : String}
    (h : ∀ x ∈ l, x.short_code ≠ code) :
    l.filter (fun x => x.short_code = code) = [] := by
  rw [List.filter_eq_nil_iff]
  intro y hy
  simpa using h y hy

theorem map_ite_eq_self {l : List UrlRecord} {code : String} {f : UrlRecord → UrlRecord}
    (h : ∀ x ∈ l, x.short_code ≠ code) :
    l.map (fun x => if x.short_code = code then f x else x) = l := by
  induction l with
  | nil => rfl
  | cons x xs ih =>
    rw [List.map_cons, if_neg (h x (List.mem_cons_self x xs)), ih (fun y hy => h y (List.mem_cons_of_mem x hy))]

theorem mem_map_ite_of_ne {l : List UrlRecord} {code : String} {f : UrlRecord → UrlRecord}
    {x : UrlRecord} (hx : x ∈ l) (hne : x.short_code ≠ code) :
    x ∈ l.map (fun y => if y.short_code = code then f y else y) :=
  List.mem_map.mpr ⟨x, hx, if_neg hne⟩

theorem mem_map_ite_of_eq {l : List UrlRecord} {code : String} {f : UrlRecord → UrlRecord}
    {r : UrlRecord} (hr : r ∈ l) (hc : r.short_code = code) :
    f r ∈ l.map (fun y => if y.short_code = code then f y else y) :=
  List.mem_map.mpr ⟨r, hr, if_pos hc⟩

theorem genLoop_zero (db : DB) (g : Nat → String) :
    genLoop db g 0 = (.error (.undefinedColumn "if"), [.selectIfFromUrls (g 0)]) := rfl

theorem postShorten_db_eq (db : DB) (g : Nat → String) (u : JsVal) (p h : String) :
    (postShorten db g u p h).2.1 = db := by
  cases hc : checkUrlField u with
  | typeError => simp [postShorten, hc]
  | invalid => simp [postShorten, hc]
  | valid s =>
    cases hs : selectShortCodeByLongUrl db s with
    | cons c t => simp [postShorten, hc, hs]
    | nil => simp [postShorten, hc, hs, genLoop_zero]

theorem getUrlByCode_db_eq (db : DB) (code : String) : (getUrlByCode db code).2 = db := by
  unfold getUrlByCode
  cases db.rows.filter (fun r => r.short_code = code) with
  | nil => rfl
  | cons r t => rfl

theorem putUpdateUrl_db_valid {lu : JsVal} {u : String} (db : DB) (code : String)
    (hc : checkUrlField lu = .valid u) :
    (putUpdateUrl db code lu).2 =
      { db with rows := db.rows.map (fun r =>
          if r.short_code = code then { r with long_url := u } else r) } := by
  simp only [putUpdateUrl, hc]
  cases (updateLongUrlReturning db u code).1 <;> rfl

theorem deleteUrl_db_eq (db : DB) (code : String) :
    (deleteUrl db code).2 = { db with rows := db.rows.filter (fun r => ¬ r.short_code = code) } := by
  simp only [deleteUrl]
  cases (deleteByCodeReturning db code).1 <;> rfl

theorem getRedirect_db_plain (db : DB) (code : String) (hres : ¬ (code = "api" ∨ code = "health")) :
    (getRedirect db code).2.1 = { db with rows := db.rows.map (fun r =>
        if r.short_code = code then { r with clicks := r.clicks + 1 } else r) } := by
  simp only [getRedirect, if_neg hres]
  cases (incrementClicksReturning db code).1 <;> rfl

theorem applyOp_clicks_back {db : DB} {op : Op} {r' : UrlRecord}
    (h : r' ∈ (applyOp db op).rows) :
    ∃ r, r ∈ db.rows ∧ r.id = r'.id ∧
      (r'.clicks = r.clicks ∨
        (r'.clicks = r.clicks + 1 ∧ ∃ c, op = .redirectOp c ∧ r.short_code = c)) := by
  cases op with
  | createOp g u p hh =>
    simp only [applyOp] at h
    rw [postShorten_db_eq] at h
    exact ⟨r', h, rfl, .inl rfl⟩
  | listOp p hh =>
    exact ⟨r', h, rfl, .inl rfl⟩
  | getOp c =>
    simp only [applyOp, getUrlByCode_db_eq] at h
    exact ⟨r', h, rfl, .inl rfl⟩
  | updateOp c lu =>
    simp only [applyOp] at h
    cases hc : checkUrlField lu with
    | typeError => simp only [putUpdateUrl, hc] at h; exact ⟨r', h, rfl, .inl rfl⟩
    | invalid => simp only [putUpdateUrl, hc] at h; exact ⟨r', h, rfl, .inl rfl⟩
    | valid u =>
      rw [putUpdateUrl_db_valid db c hc] at h
      obtain ⟨r, hr, hfr⟩ := List.mem_map.mp h
      by_cases hsc : r.short_code = c
      · rw [if_pos hsc] at hfr
        exact ⟨r, hr, by rw [← hfr], .inl (by rw [← hfr])⟩
      · rw [if_neg hsc] at hfr
        subst hfr
        exact ⟨r, hr, rfl, .inl rfl⟩
  | deleteOp c =>
    simp only [applyOp, deleteUrl_db_eq] at h
    exact ⟨r', List.mem_of_mem_filter h, rfl, .inl rfl⟩
  | redirectOp c =>
    simp only [applyOp] at h
    by_cases hres : c = "api" ∨ c = "health"
    · simp only [getRedirect, if_pos hres] at h
      exact ⟨r', h, rfl, .inl rfl⟩
    · rw [getRedirect_db_plain db c hres] at h
      obtain ⟨r, hr, hfr⟩ := List.mem_map.mp h
      by_cases hsc : r.short_code = c
      · rw [if_pos hsc] at hfr
        exact ⟨r, hr, by rw [← hfr], .inr ⟨by rw [← hfr], c, rfl, hsc⟩⟩
      · rw [if_neg hsc] at hfr
        subst hfr
        exact ⟨r, hr, rfl, .inl rfl⟩

theorem foldl_applyOp_clicks_le (ops : List Op) (db : DB) (r' : UrlRecord)
    (h : r' ∈ (ops.foldl applyOp db).rows) :
    ∃ r, r ∈ db.rows ∧ r.id = r'.id ∧ r.clicks ≤ r'.clicks := by
  induction ops generalizing db with
  | nil => exact ⟨r', h, rfl, le_refl _⟩
  | cons op rest ih =>
    rw [List.foldl_cons] at h
    obtain ⟨r1, hr1, hid1, hle⟩ := ih (applyOp db op) h
    obtain ⟨r, hr, hid, hstep⟩ := applyOp_clicks_back hr1
    refine ⟨r, hr, hid.trans hid1, ?_⟩
    rcases hstep with h1 | ⟨h2, _⟩
    · omega
    · omega

theorem filter_not_code_eq_self {l : List UrlRecord} {code : String}
    (h : ∀ x ∈ l, x.short_code ≠ code) :
    l.filter (fun x => ¬ x.short_code = code) = l := by
  induction l with
  | nil => rfl
  | cons x xs ih =>
    have hx : ¬ x.short_code = code := h x (List.mem_cons_self x xs)
    rw [List.filter_cons, if_pos (by simp [hx]),
      ih (fun y hy => h y (List.mem_cons_of_mem x hy))]

/-- C2: for a short code other than the reserved `api`/`health` segments, the
redirect handler issues exactly one store statement — the atomic
increment-and-return `UPDATE urls SET clicks = clicks + 1 ... RETURNING long_url`
— never a separate read then write; when a record with that code exists, its
clicks counter grows by exactly 1, the response is a 302 redirect to its
long_url and every other record is untouched; when no record matches, the
handler answers 404 and the store is unchanged. -/
theorem redirect_atomic_increment_or_404 (db : DB) (code : String)
    (hapi : code ≠ "api") (hhealth : code ≠ "health")
    (hnd : (db.rows.map (fun x => x.short_code)).Nodup) :
    ((∀ x ∈ db.rows, x.short_code ≠ code) →
      getRedirect db code = (.err 404 "Short URL not found", db, [.incrementClicks code])) ∧
    (∀ r ∈ db.rows, r.short_code = code →
      (getRedirect db code).1 = .redirect 302 r.long_url ∧
      (getRedirect db code).2.2 = [SqlStmt.incrementClicks code] ∧
      { r with clicks := r.clicks + 1 } ∈ (getRedirect db code).2.1.rows ∧
      (∀ x ∈ db.rows, x.short_code ≠ code → x ∈ (getRedirect db code).2.1.rows) ∧
      (getRedirect db code).2.1.rows.length = db.rows.length) := by
  have hres : ¬ (code = "api" ∨ code = "health") := by
    rintro (rfl | rfl)
    · exact hapi rfl
    · exact hhealth rfl
  constructor
  · intro hnone
    have hfil : db.rows.filter (fun x => x.short_code = code) = [] := filter_code_eq_nil hnone
    have hmap := map_ite_eq_self (f := fun r => { r with clicks := r.clicks + 1 }) hnone
    simp only [getRedirect, if_neg hres, incrementClicksReturning, hfil, List.map_nil, hmap]
  · intro r hr hrc
    have hfil : db.rows.filter (fun x => x.short_code = code) = [r] :=
      filter_code_eq_single hnd hr hrc
    refine ⟨?_, ?_, ?_, ?_, ?_⟩
    · simp only [getRedirect, if_neg hres, incrementClicksReturning, hfil, List.map_cons,
        List.map_nil]
    · simp only [getRedirect, if_neg hres, incrementClicksReturning, hfil, List.map_cons,
        List.map_nil]
    · rw [getRedirect_db_plain db code hres]
      exact mem_map_ite_of_eq hr hrc
    · intro x hx hxne
      rw [getRedirect_db_plain db code hres]
      exact mem_map_ite_of_ne hx hxne
    · rw [getRedirect_db_plain db code hres]
      simp

theorem redirect_atomic_increment_witness :
    (getRedirect ⟨[⟨1, "abc123", "https://example.com", 50, 0⟩], 2, 100⟩ "abc123").1 =
      .redirect 302 "https://example.com" ∧
    (⟨1, "abc123", "https://example.com", 50, 1⟩ : UrlRecord) ∈
      (getRedirect ⟨[⟨1, "abc123", "https://example.com", 50, 0⟩], 2, 100⟩ "abc123").2.1.rows ∧
    getRedirect ⟨[], 1, 100⟩ "zzz999" =
      (.err 404 "Short URL not found", ⟨[], 1, 100⟩, [.incrementClicks "zzz999"]) := by
  have h := (redirect_atomic_increment_or_404
      ⟨[⟨1, "abc123", "https://example.com", 50, 0⟩], 2, 100⟩ "abc123"
      (by decide) (by decide) (by decide)).2
      ⟨1, "abc123", "https://example.com", 50, 0⟩ (by decide) rfl
  have h404 := (redirect_atomic_increment_or_404 ⟨[], 1, 100⟩ "zzz999"
      (by decide) (by decide) (by decide)).1 (by decide)
  exact ⟨h.1, h.2.2.1, h404⟩

/-- C7: an update of an existing short code with a valid replacement URL
overwrites only that record's long_url — its id, short_code, created_at and
clicks survive in the store — every other record is unchanged, and the handler
answers 200 with the updated record's serialized fields. -/
theorem update_overwrites_only_long_url
    (db : DB) (code u : String) (r : UrlRecord)
    (hnd : (db.rows.map (fun x => x.short_code)).Nodup)
    (hr : r ∈ db.rows) (hrc : r.short_code = code)
    (hu : startsWithHttp u = true) :
    (putUpdateUrl db code (.str u)).1 = .ok 200 r.id r.short_code u r.clicks ∧
    { r with long_url := u } ∈ (putUpdateUrl db code (.str u)).2.rows ∧
    (∀ x ∈ db.rows, x ≠ r → x ∈ (putUpdateUrl db code (.str u)).2.rows) ∧
    (putUpdateUrl db code (.str u)).2.rows.length = db.rows.length := by
  have hc : checkUrlField (.str u) = .valid u := checkUrlField_str_valid hu
  have hfil : db.rows.filter (fun x => x.short_code = code) = [r] :=
    filter_code_eq_single hnd hr hrc
  have hdb := putUpdateUrl_db_valid db code hc
  refine ⟨?_, ?_, ?_, ?_⟩
  · simp only [putUpdateUrl, hc, updateLongUrlReturning, hfil, List.map_cons, List.map_nil]
  · rw [hdb]
    exact mem_map_ite_of_eq hr hrc
  · intro x hx hxr
    rw [hdb]
    have hxc : x.short_code ≠ code := by
      intro hxc
      have hmem : x ∈ db.rows.filter (fun y => y.short_code = code) :=
        List.mem_filter.mpr ⟨hx, by simp [hxc]⟩
      rw [hfil] at hmem
      exact hxr (List.mem_singleton.mp hmem)
    exact mem_map_ite_of_ne hx hxc
  · rw [hdb]
    simp

theorem update_overwrites_witness :
    (putUpdateUrl ⟨[⟨1, "abc123", "https://example.com", 50, 7⟩], 2, 100⟩ "abc123"
        (.str "https://other.com")).1 = .ok 200 1 "abc123" "https://other.com" 7 ∧
    (⟨1, "abc123", "https://other.com", 50, 7⟩ : UrlRecord) ∈
      (putUpdateUrl ⟨[⟨1, "abc123", "https://example.com", 50, 7⟩], 2, 100⟩ "abc123"
        (.str "https://other.com")).2.rows := by
  have h := update_overwrites_only_long_url
      ⟨[⟨1, "abc123", "https://example.com", 50, 7⟩], 2, 100⟩ "abc123" "https://other.com"
      ⟨1, "abc123", "https://example.com", 50, 7⟩ (by decide) (by decide) rfl (by decide)
  exact ⟨h.1, h.2.1⟩

/-- C8: get, update (with a valid replacement URL) and delete each answer 404
and leave the store unchanged when no record carries the requested code; when a
record exists, get answers 200 with the full record and delete removes exactly
the matching record and answers with the confirmation message. -/
theorem get_update_delete_by_code (db : DB) (code u : String) :
    ((∀ x ∈ db.rows, x.short_code ≠ code) →
      getUrlByCode db code = (.err 404 "URL not found", db) ∧
      (startsWithHttp u = true →
        putUpdateUrl db code (.str u) = (.err 404 "URL not found", db)) ∧
      deleteUrl db code = (.err 404 "URL not found", db)) ∧
    (∀ r ∈ db.rows, r.short_code = code → (db.rows.map (fun x => x.short_code)).Nodup →
      getUrlByCode db code = (.ok 200 r.id r.short_code r.long_url r.created_at r.clicks, db) ∧
      (deleteUrl db code).1 = .ok 200 "URL deleted successfully" code ∧
      (∀ x ∈ db.rows, x.short_code ≠ code → x ∈ (deleteUrl db code).2.rows) ∧
      (∀ x ∈ (deleteUrl db code).2.rows, x ∈ db.rows ∧ x.short_code ≠ code)) := by
  constructor
  · intro hnone
    have hfil : db.rows.filter (fun x => x.short_code = code) = [] := filter_code_eq_nil hnone
    refine ⟨?_, ?_, ?_⟩
    · simp only [getUrlByCode, hfil]
    · intro hu
      have hc : checkUrlField (.str u) = .valid u := checkUrlField_str_valid hu
      have hmap := map_ite_eq_self (f := fun r => { r with long_url := u }) hnone
      simp only [putUpdateUrl, hc, updateLongUrlReturning, hfil, List.map_nil, hmap]
    · have hkeep := filter_not_code_eq_self hnone
      simp only [deleteUrl, deleteByCodeReturning, hfil, List.map_nil, hkeep]
  · intro r hr hrc hnd
    have hfil : db.rows.filter (fun x => x.short_code = code) = [r] :=
      filter_code_eq_single hnd hr hrc
    refine ⟨?_, ?_, ?_, ?_⟩
    · simp only [getUrlByCode, hfil]
    · simp only [deleteUrl, deleteByCodeReturning, hfil, List.map_cons, List.map_nil]
    · intro x hx hxne
      rw [deleteUrl_db_eq]
      exact List.mem_filter.mpr ⟨hx, by simp [hxne]⟩
    · intro x hx
      rw [deleteUrl_db_eq] at hx
      exact ⟨List.mem_of_mem_filter hx, by simpa using List.of_mem_filter hx⟩

theorem get_update_delete_witness :
    getUrlByCode ⟨[], 1, 100⟩ "abc123" = (.err 404 "URL not found", ⟨[], 1, 100⟩) ∧
    putUpdateUrl ⟨[], 1, 100⟩ "abc123" (.str "https://other.com") =
      (.err 404 "URL not found", ⟨[], 1, 100⟩) ∧
    deleteUrl ⟨[], 1, 100⟩ "abc123" = (.err 404 "URL not found", ⟨[], 1, 100⟩) ∧
    getUrlByCode ⟨[⟨1, "abc123", "https://example.com", 50, 3⟩], 2, 100⟩ "abc123" =
      (.ok 200 1 "abc123" "https://example.com" 50 3,
       ⟨[⟨1, "abc123", "https://example.com", 50, 3⟩], 2, 100⟩) ∧
    (deleteUrl ⟨[⟨1, "abc123", "https://example.com", 50, 3⟩], 2, 100⟩ "abc123").1 =
      .ok 200 "URL deleted successfully" "abc123" := by
  have h1 := (get_update_delete_by_code ⟨[], 1, 100⟩ "abc123" "https://other.com").1
    (by decide)
  have h2 := (get_update_delete_by_code
      ⟨[⟨1, "abc123", "https://example.com", 50, 3⟩], 2, 100⟩ "abc123" "https://other.com").2
    ⟨1, "abc123", "https://example.com", 50, 3⟩ (by decide) rfl (by decide)
  exact ⟨h1.1, h1.2.1 (by decide), h1.2.2, h2.1, h2.2.1⟩

theorem checkUrlField_str_valid_inv {u s : String}
    (h : checkUrlField (.str u) = .valid s) : s = u := by
  by_cases he : u = ""
  · subst he
    simp [checkUrlField, truthy] at h
  · have ht : truthy (.str u) = true := by simp [truthy, he]
    by_cases hs : startsWithHttp u
    · rw [checkUrlField_str_valid hs] at h
      injection h with h
      exact h.symm
    · have hinv : checkUrlField (.str u) = .invalid := by
        simp [checkUrlField, ht, hs]
      rw [hinv] at h
      cases h

/-- C3: if a create call for the URL string `u` succeeded with short code `c`,
and the mapping has neither been deleted nor rewritten — every record whose
long_url equals `u` (exact, case-sensitive string comparison, no
normalization) still carries short code `c`, and one such record exists — then
a second create call for the very same string takes the de-duplication path:
it runs only the exact-match lookup, answers 200 (not an error, not 201) with
the same short code `c`, and leaves the store unchanged. -/
theorem second_create_returns_first_code
    (dbA dbB : DB) (g1 g2 : Nat → String) (u p1 h1 p2 h2 : String)
    (st : Nat) (c su : String)
    (hfirst : (postShorten dbA g1 (.str u) p1 h1).1 = .ok st c su)
    (hkept : ∃ r ∈ dbB.rows, r.long_url = u ∧ r.short_code = c)
    (hall : ∀ r ∈ dbB.rows, r.long_url = u → r.short_code = c) :
    postShorten dbB g2 (.str u) p2 h2 =
      (.ok 200 c (shortUrlOf p2 h2 c), dbB, [.selectByLongUrl u]) := by
  have hval : checkUrlField (.str u) = .valid u := by
    cases hc : checkUrlField (.str u) with
    | typeError => simp [postShorten, hc] at hfirst
    | invalid => simp [postShorten, hc] at hfirst
    | valid s =>
      rw [checkUrlField_str_valid_inv hc]
  have hcmem : c ∈ selectShortCodeByLongUrl dbB u := by
    obtain ⟨r, hr, hru, hrc⟩ := hkept
    exact List.mem_map.mpr ⟨r, List.mem_filter.mpr ⟨hr, by simp [hru]⟩, hrc⟩
  cases hsel2 : selectShortCodeByLongUrl dbB u with
  | nil =>
    rw [hsel2] at hcmem
    cases hcmem
  | cons c0 t0 =>
    have hc0 : c0 = c := by
      have hc0mem : c0 ∈ selectShortCodeByLongUrl dbB u := by
        rw [hsel2]
        exact List.mem_cons_self c0 t0
      obtain ⟨r0, hr0mem, hr0⟩ := List.mem_map.mp hc0mem
      have hr0u : r0.long_url = u := by simpa using List.of_mem_filter hr0mem
      rw [← hr0]
      exact hall r0 (List.mem_of_mem_filter hr0mem) hr0u
    subst hc0
    simp [postShorten, hval, hsel2]

theorem second_create_witness :
    postShorten ⟨[⟨1, "abc123", "https://example.com", 50, 0⟩], 2, 100⟩ (fun _ => "zzz999")
        (.str "https://example.com") "https" "sho.rt" =
      (.ok 200 "abc123" (shortUrlOf "https" "sho.rt" "abc123"),
       ⟨[⟨1, "abc123", "https://example.com", 50, 0⟩], 2, 100⟩,
       [.selectByLongUrl "https://example.com"]) :=
  second_create_returns_first_code
    ⟨[⟨1, "abc123", "https://example.com", 50, 0⟩], 2, 100⟩
    ⟨[⟨1, "abc123", "https://example.com", 50, 0⟩], 2, 100⟩
    (fun _ => "qqq000") (fun _ => "zzz999") "https://example.com" "http" "localhost" "https"
    "sho.rt" 200 "abc123" (shortUrlOf "http" "localhost" "abc123")
    (by decide)
    ⟨⟨1, "abc123", "https://example.com", 50, 0⟩, by decide, rfl, rfl⟩
    (by decide)

/-- C6: the clicks counter is monotone.  First conjunct: the embedded INSERT
statement creates its record with `clicks = 0` (the schema default) and adds
nothing else.  Second conjunct: across any single operation, every record of
the post state stems from a record of the pre state with the same id whose
clicks it either keeps or — exactly for a redirect that hits the record's own
short code — exceeds by exactly 1.  Third conjunct: across every sequence of
operations, the clicks of a surviving record (tracked by id) never decrease. -/
theorem clicks_monotone :
    (∀ db code url db', insertUrl db code url = .ok db' →
      (⟨db.nextId, code, url, db.now, 0⟩ : UrlRecord) ∈ db'.rows ∧
      ∀ x ∈ db'.rows, x ∈ db.rows ∨ x = ⟨db.nextId, code, url, db.now, 0⟩) ∧
    (∀ db op r', r' ∈ (applyOp db op).rows →
      ∃ r, r ∈ db.rows ∧ r.id = r'.id ∧
        (r'.clicks = r.clicks ∨
          (r'.clicks = r.clicks + 1 ∧ ∃ c, op = .redirectOp c ∧ r.short_code = c))) ∧
    (∀ (ops : List Op) (db : DB) (r r' : UrlRecord),
      (db.rows.map (fun x => x.id)).Nodup → r ∈ db.rows →
      r' ∈ (ops.foldl applyOp db).rows → r'.id = r.id → r.clicks ≤ r'.clicks) := by
  refine ⟨?_, ?_, ?_⟩
  · intro db code url db' hok
    unfold insertUrl at hok
    split at hok
    · cases hok
    · injection hok with hok
      rw [← hok]
      constructor
      · exact List.mem_append_right _ (List.mem_singleton_self _)
      · intro x hx
        rcases List.mem_append.mp hx with hx | hx
        · exact Or.inl hx
        · exact Or.inr (List.mem_singleton.mp hx)
  · intro db op r' h
    exact applyOp_clicks_back h
  · intro ops db r r' hnd hr hr' hid
    obtain ⟨r0, hr0, hid0, hle⟩ := foldl_applyOp_clicks_le ops db r' hr'
    have hr0r : r0 = r := List.inj_on_of_nodup_map hnd hr0 hr (by rw [hid0, hid])
    rw [← hr0r]
    exact hle

theorem clicks_monotone_witness :
    ((⟨1, "abc123", "https://example.com", 100, 0⟩ : UrlRecord) ∈
      (⟨[⟨1, "abc123", "https://example.com", 100, 0⟩], 2, 100⟩ : DB).rows) ∧
    ((0 : Int) ≤ (1 : Int)) := by
  constructor
  · exact (clicks_monotone.1 ⟨[], 1, 100⟩ "abc123" "https://example.com"
      ⟨[⟨1, "abc123", "https://example.com", 100, 0⟩], 2, 100⟩ rfl).1
  · have h := clicks_monotone.2.2 [Op.redirectOp "abc123"]
      ⟨[⟨1, "abc123", "https://example.com", 50, 0⟩], 2, 100⟩
      ⟨1, "abc123", "https://example.com", 50, 0⟩
      ⟨1, "abc123", "https://example.com", 50, 1⟩
      (by decide) (by decide) (by decide) rfl
    exact h

/-! ### Claim theorems -/

/-- C1: the claim says a create request for a valid, not-yet-stored URL
generates a code, verifies it is free via a store lookup, inserts the pair and
returns 201.  On the code this fails: the collision-check statement
`SELECT if FROM urls WHERE short_code = $1` names a column the `urls` schema
does not have, so the lookup throws, the catch branch answers 500
`Internal server error`, and nothing is inserted.  This theorem evaluates the
handler at the failing input (empty store, url `https://example.com`). -/
theorem create_fresh_url_hits_internal_error :
    postShorten ⟨[], 1, 100⟩ (fun _ => "abc123") (.str "https://example.com") "http" "localhost:3000" =
      (.err 500 "Internal server error", ⟨[], 1, 100⟩,
       [.selectByLongUrl "https://example.com", .selectIfFromUrls "abc123"]) := by
  decide

/-- C4: the claim says create fails with status 500 if and only if all 5
generated candidate codes collide, and that a free code found by any attempt is
used for the insert.  On the code this fails: with an empty store no collision
is possible at all, yet the very first collision check throws (the statement
selects the nonexistent column `if`), so create answers 500
`Internal server error` after a single generation attempt — it is not the
`Failed to generate unique code` exhaustion answer, and the free candidate
`qqq111` is never inserted. -/
theorem retry_loop_errors_without_any_collision :
    postShorten ⟨[], 5, 77⟩ (fun n => if n = 0 then "qqq111" else "zzz999")
        (.str "https://fresh.example/a") "https" "sho.rt" =
      (.err 500 "Internal server error", ⟨[], 5, 77⟩,
       [.selectByLongUrl "https://fresh.example/a", .selectIfFromUrls "qqq111"]) := by
  decide

/-- C9: for the reserved segments `api` and `health` the redirect handler
returns from its in-handler guard: it issues no store statement, leaves the
store untouched, and produces no response. -/
theorem reserved_segments_no_query_no_response (db : DB) :
    getRedirect db "api" = (.noResponse, db, []) ∧
    getRedirect db "health" = (.noResponse, db, []) := by
  constructor <;> rfl

/-- C5: a create request whose url field is missing (`undefined` after
destructuring), empty, or a string not starting with `http`, is rejected with
status 400 before any store statement runs: the store is unchanged and nothing
is inserted or modified. -/
theorem invalid_url_rejected_without_store_change
    (db : DB) (g : Nat → String) (p h : String) (url : JsVal)
    (hbad : url = .undef ∨ url = .str "" ∨
      ∃ s, url = .str s ∧ startsWithHttp s = false) :
    postShorten db g url p h =
      (.err 400 "Valid URL required (must start with http/https)", db, []) := by
  have hc : checkUrlField url = .invalid := by
    rcases hbad with rfl | rfl | ⟨s, rfl, hs⟩
    · rfl
    · rfl
    · by_cases hse : s = ""
      · subst hse; rfl
      · simp [checkUrlField, truthy, hse, hs]
  simp [postShorten, hc]

theorem invalid_url_rejected_witness :
    postShorten ⟨[⟨1, "abc123", "https://example.com", 50, 0⟩], 2, 100⟩
        (fun _ => "zzz999") (.str "ftp://example.com") "http" "localhost" =
      (.err 400 "Valid URL required (must start with http/https)", ⟨[⟨1, "abc123", "https://example.com", 50, 0⟩], 2, 100⟩, []) :=
  invalid_url_rejected_without_store_change _ _ _ _ _
    (Or.inr (Or.inr ⟨"ftp://example.com", rfl, by decide⟩))

/-- C10: a request-body url (create) or longUrl (update) that is truthy but not
a string makes the validation's `startsWith` call throw a TypeError, so the
catch branch answers 500 `Internal server error` (not 400), the store stays
unchanged, and create inserts nothing. -/
theorem nonstring_url_yields_internal_error
    (db : DB) (g : Nat → String) (p h : String) (v : JsVal)
    (ht : truthy v = true) (hns : ∀ s, v ≠ .str s) :
    postShorten db g v p h = (.err 500 "Internal server error", db, []) ∧
    ∀ code, putUpdateUrl db code v = (.err 500 "Internal server error", db) := by
  have hc : checkUrlField v = .typeError := by
    cases v with
    | undef => cases ht
    | nullv => cases ht
    | str s => exact absurd rfl (hns s)
    | num n => simp [checkUrlField, ht]
    | objv => simp [checkUrlField, ht]
    | boolv b => simp [checkUrlField, ht]
  exact ⟨by simp [postShorten, hc], fun code => by simp [putUpdateUrl, hc]⟩

theorem nonstring_url_witness :
    postShorten ⟨[], 1, 100⟩ (fun _ => "abc123") (.num 5) "http" "localhost" =
      (.err 500 "Internal server error", ⟨[], 1, 100⟩, []) ∧
    putUpdateUrl ⟨[], 1, 100⟩ "abc123" (.num 5) =
      (.err 500 "Internal server error", ⟨[], 1, 100⟩) := by
  have h := nonstring_url_yields_internal_error ⟨[], 1, 100⟩ (fun _ => "abc123")
    "http" "localhost" (.num 5) (by decide) (by intro s hs; cases hs)
  exact ⟨h.1, h.2 "abc123"⟩

theorem reserved_segments_witness :
    getRedirect ⟨[], 1, 100⟩ "api" = (.noResponse, ⟨[], 1, 100⟩, []) ∧
    getRedirect ⟨[], 1, 100⟩ "health" = (.noResponse, ⟨[], 1, 100⟩, []) :=
  reserved_segments_no_query_no_response ⟨[], 1, 100⟩
